import Mathlib

/-
Verification of the session-store core (src/lib/store.js): an in-memory
session cache in front of a PouchDB-style revisioned document store.

JavaScript objects are embedded as association lists from string keys to
values; each method of the SessionStore class is embedded as a state
transformer that also records the sequence of completion-callback
invocations and the number of store write (put) calls it performs.
-/

namespace PouchSession

/-- A JavaScript value as it appears in a session record: a string, a
number (timestamps, revision numbers), or a boolean. -/
inductive JVal where
  | str : String → JVal
  | num : Int → JVal
  | boolean : Bool → JVal
deriving DecidableEq, Repr

/-- JavaScript truthiness for the values above (used by the source's
`if (!session._id)` test). -/
def JVal.truthy : JVal → Bool
  | .str s => s ≠ ""
  | .num n => n ≠ 0
  | .boolean b => b

/-- Association-list lookup: the value bound to key `k`, if any.
Models JavaScript property read `o[k]`. -/
def alookup {α : Type} : List (String × α) → String → Option α
  | [], _ => none
  | (k', v') :: rest, k => if k' = k then some v' else alookup rest k

/-- Association-list update: replace the first binding of `k`, or append a
new binding. Models JavaScript property write `o[k] = v`. -/
def aset {α : Type} : List (String × α) → String → α → List (String × α)
  | [], k, v => [(k, v)]
  | (k', v') :: rest, k, v =>
    if k' = k then (k, v) :: rest else (k', v') :: aset rest k v

/-- Association-list deletion. Models JavaScript `delete o[k]`. -/
def adel {α : Type} : List (String × α) → String → List (String × α)
  | [], _ => []
  | (k', v') :: rest, k =>
    if k' = k then adel rest k else (k', v') :: adel rest k

/-- A JavaScript object: a session record or document body. -/
def JObj : Type := List (String × JVal)

instance : DecidableEq JObj := inferInstanceAs (DecidableEq (List (String × JVal)))

instance : Repr JObj := inferInstanceAs (Repr (List (String × JVal)))

/-- Property read on a record. -/
def jget (o : JObj) (k : String) : Option JVal := alookup o k

/-- Property write on a record. -/
def jset (o : JObj) (k : String) (v : JVal) : JObj := aset o k v

/-- `Object.assign(target, src)`: every binding of `src` is written into
`target` in order, source values winning. -/
def assign (target src : JObj) : JObj :=
  src.foldl (fun acc kv => jset acc kv.1 kv.2) target

/-- A well-formed object has no duplicate keys, as every JavaScript object
does. -/
def wfObj (o : JObj) : Prop := (o.map Prod.fst).Nodup

instance (o : JObj) : Decidable (wfObj o) :=
  inferInstanceAs (Decidable ((o.map Prod.fst).Nodup))

/-- A stored document in the PouchDB model: its identifier, its current
revision number, and the body last written for it. PouchDB serves the
authoritative `_id` and `_rev` with every read. -/
structure PDoc where
  id : String
  rev : Nat
  body : JObj
deriving DecidableEq, Repr

/-- Errors of the store adapter, carrying the HTTP-style status the source
inspects (`err.status === 404`). -/
inductive PErr where
  | notFound
  | conflict
  | badRequest
deriving DecidableEq, Repr

instance {ε α : Type} [DecidableEq ε] [DecidableEq α] :
    DecidableEq (Except ε α) := fun x y =>
  match x, y with
  | .ok a, .ok b =>
    if h : a = b then isTrue (by rw [h])
    else isFalse (fun hc => h (Except.ok.inj hc))
  | .ok _, .error _ => isFalse (fun hc => Except.noConfusion hc)
  | .error _, .ok _ => isFalse (fun hc => Except.noConfusion hc)
  | .error e, .error f =>
    if h : e = f then isTrue (by rw [h])
    else isFalse (fun hc => h (Except.error.inj hc))

/-- The status code of a store-adapter error. -/
def PErr.status : PErr → Nat
  | .notFound => 404
  | .conflict => 409
  | .badRequest => 400

/-- Find a document by identifier. -/
def dbFind : List PDoc → String → Option PDoc
  | [], _ => none
  | pd :: rest, i => if pd.id = i then some pd else dbFind rest i

/-- Delete a document by identifier. -/
def dbDel : List PDoc → String → List PDoc
  | [], _ => []
  | pd :: rest, i => if pd.id = i then dbDel rest i else pd :: dbDel rest i

/-- Write a document body at a revision, replacing any existing document
with the same identifier. -/
def dbPut : List PDoc → String → Nat → JObj → List PDoc
  | [], i, r, b => [⟨i, r, b⟩]
  | pd :: rest, i, r, b =>
    if pd.id = i then ⟨i, r, b⟩ :: rest else pd :: dbPut rest i r b

/-- The document as PouchDB serves it: the stored body with the
authoritative `_id` and `_rev` fields. -/
def servedDoc (pd : PDoc) : JObj :=
  jset (jset pd.body "_id" (.str pd.id)) "_rev" (.num pd.rev)

/-- `pouch.get(id)`: the served document, or a 404 error if absent. -/
def pouchGet (db : List PDoc) (i : String) : Except PErr JObj :=
  match dbFind db i with
  | some pd => .ok (servedDoc pd)
  | none => .error .notFound

/-- `pouch.put(doc)`: revision-checked optimistic-concurrency write. A new
document must carry no `_rev`; an update must carry the current `_rev`;
otherwise the write is rejected with a conflict. -/
def pouchPut (db : List PDoc) (doc : JObj) : Except PErr (List PDoc) :=
  match jget doc "_id" with
  | some (.str i) =>
    match dbFind db i with
    | some pd =>
      if jget doc "_rev" = some (.num pd.rev) then
        .ok (dbPut db i (pd.rev + 1) doc)
      else .error .conflict
    | none =>
      match jget doc "_rev" with
      | none => .ok (dbPut db i 1 doc)
      | some _ => .error .conflict
  | _ => .error .badRequest

/-- `pouch.remove(doc)`: deletes the document named by `doc._id` when
`doc._rev` matches the current revision. Called with `undefined` (as the
source's destroy does for a missing session) it fails. -/
def pouchRemove (db : List PDoc) (odoc : Option JObj) : Except PErr (List PDoc) :=
  match odoc with
  | none => .error .badRequest
  | some d =>
    match jget d "_id" with
    | some (.str i) =>
      match jget d "_rev" with
      | some (.num r) =>
        match dbFind db i with
        | some pd => if r = (pd.rev : Int) then .ok (dbDel db i) else .error .conflict
        | none => .error .notFound
      | _ => .error .conflict
    | _ => .error .badRequest

/-- One item of a bulk write as `clear` uses it: a tombstone
`{_id, _rev, _deleted: true}`. A revision mismatch is a per-item failure
that leaves the document in place; it does not abort the bulk call. -/
def bulkDelOne (db : List PDoc) (doc : JObj) : List PDoc :=
  match jget doc "_id", jget doc "_rev", jget doc "_deleted" with
  | some (.str i), some (.num r), some (.boolean true) =>
    match dbFind db i with
    | some pd => if r = (pd.rev : Int) then dbDel db i else db
    | none => db
  | _, _, _ => db

/-- `pouch.bulkDocs(docs)` restricted to the tombstone deletes `clear`
issues. -/
def pouchBulkDocs (db : List PDoc) (docs : List JObj) : List PDoc :=
  docs.foldl bulkDelOne db

/-- The mutable state of a SessionStore: the in-memory session cache
(`this.sessions`) and the backing PouchDB database. -/
structure SState where
  sessions : List (String × JObj)
  pouch : List PDoc
deriving DecidableEq, Repr

/-- One invocation of a completion callback. -/
inductive Cb where
  | ok : Option JObj → Cb
  | okDocs : List JObj → Cb
  | okLen : Nat → Cb
  | err : PErr → Cb
deriving DecidableEq, Repr

/-- The result of running one operation: the state afterwards, the
callback invocations it performed in order, and how many store writes
(`pouch.put` calls) it made. -/
structure OpRes where
  state : SState
  cbs : List Cb
  puts : Nat
deriving DecidableEq, Repr

/-- The `(err, doc)` pair `SessionStore.get` hands its callback: cache hit
first, then a store read; a 404 from the store is success with an absent
document, any other store error is surfaced. -/
def getCb (s : SState) (sid : String) : Option PErr × Option JObj :=
  match alookup s.sessions sid with
  | some sess => (none, some sess)
  | none =>
    match pouchGet s.pouch sid with
    | .ok sess => (none, some sess)
    | .error e => if e.status = 404 then (none, none) else (some e, none)

/-- `SessionStore.get(sid, callback)`. It never mutates the state. -/
def SessionStore.get (s : SState) (sid : String) : OpRes :=
  match getCb s sid with
  | (some e, _) => ⟨s, [.err e], 0⟩
  | (none, od) => ⟨s, [.ok od], 0⟩

/-- The record `set` builds before merging: `_id` assigned from `sid` when
the record has no truthy `_id`, then `$ts` stamped with the current time. -/
def setSession2 (now : Int) (sid : String) (session : JObj) : JObj :=
  let session1 :=
    if ((jget session "_id").map JVal.truthy).getD false then session
    else jset session "_id" (.str sid)
  jset session1 "$ts" (.num now)

/-- The record `set` places in the cache: the stamped record merged over
any existing cache entry, new values winning. -/
def setMerged (s : SState) (now : Int) (sid : String) (session : JObj) : JObj :=
  assign ((alookup s.sessions sid).getD []) (setSession2 now sid session)

/-- `SessionStore.set(sid, session, callback)`: stamp, merge into the
cache, then attempt the store write; the error of a failed write is
surfaced while the merged record stays in the cache. -/
def SessionStore.set (s : SState) (now : Int) (sid : String) (session : JObj) : OpRes :=
  let merged := setMerged s now sid session
  let sessions1 := aset s.sessions sid merged
  match pouchPut s.pouch merged with
  | .ok db1 => ⟨⟨sessions1, db1⟩, [.ok none], 1⟩
  | .error e => ⟨⟨sessions1, s.pouch⟩, [.err e], 1⟩

/-- `SessionStore.destroy(sid, callback)`: looks the record up through
`get`, deletes the cache entry, then removes the document from the store. -/
def SessionStore.destroy (s : SState) (sid : String) : OpRes :=
  match getCb s sid with
  | (some e, _) => ⟨s, [.err e], 0⟩
  | (none, odoc) =>
    let sessions1 := adel s.sessions sid
    match pouchRemove s.pouch odoc with
    | .ok db1 => ⟨⟨sessions1, db1⟩, [.ok none], 0⟩
    | .error e => ⟨⟨sessions1, s.pouch⟩, [.err e], 0⟩

/-- `SessionStore.all(callback)`: every served document from the store;
the cache plays no part. -/
def SessionStore.all (s : SState) : OpRes :=
  ⟨s, [.okDocs (s.pouch.map servedDoc)], 0⟩

/-- The tombstone `clear` builds from an allDocs row. -/
def tombstone (pd : PDoc) : JObj :=
  [("_id", .str pd.id), ("_rev", .num pd.rev), ("_deleted", .boolean true)]

/-- `SessionStore.clear(callback)`: lists every document and issues a bulk
tombstone delete for all of them; the in-memory cache is not touched. -/
def SessionStore.clear (s : SState) : OpRes :=
  ⟨⟨s.sessions, pouchBulkDocs s.pouch (s.pouch.map tombstone)⟩, [.ok none], 0⟩

/-- `SessionStore.length(callback)`: the store's document count, not the
cache's size. -/
def SessionStore.length (s : SState) : OpRes :=
  ⟨s, [.okLen s.pouch.length], 0⟩

/-- The lookup `touch` performs: `this.sessions[sid] || await
this.pouch.get(sid)`. -/
def touchLookup (s : SState) (sid : String) : Except PErr JObj :=
  match alookup s.sessions sid with
  | some o => .ok o
  | none => pouchGet s.pouch sid

/-- The staleness test of `touch`: `Date.now() - oldSession.$ts > 1000`.
A missing or non-numeric timestamp compares as NaN in JavaScript, hence
false. -/
def touchStale (now : Int) (sess : JObj) : Bool :=
  match jget sess "$ts" with
  | some (.num t) => decide (now - t > 1000)
  | _ => false

/-- `SessionStore.touch(sid, session, callback)`: on a stale existing
record it re-caches it and delegates to `set` on that old record, then
invokes the callback once more (the source's double invocation); on a
fresh record it only invokes the callback; a failed lookup surfaces the
error, a 404 included. The `session` argument is never used. -/
def SessionStore.touch (s : SState) (now : Int) (sid : String)
    (session : JObj) : OpRes :=
  match touchLookup s sid with
  | .error e => ⟨s, [.err e], 0⟩
  | .ok oldSession =>
    if touchStale now oldSession then
      let s1 : SState := ⟨aset s.sessions sid oldSession, s.pouch⟩
      let r := SessionStore.set s1 now sid oldSession
      ⟨r.state, r.cbs ++ [.ok none], r.puts⟩
    else ⟨s, [.ok none], 0⟩

/-- Whether a cache entry is evicted by a scavenge tick at time `now`:
`now - sess.$ts > opt.maxIdle`, false when `$ts` is missing or not a
number (NaN comparison). -/
def tsIdle (now maxIdle : Int) (sess : JObj) : Bool :=
  match jget sess "$ts" with
  | some (.num t) => decide (now - t > maxIdle)
  | _ => false

/-- The cache after one scavenge pass: every entry idle beyond `maxIdle`
is deleted, the rest are kept in order. -/
def scavengeFilter (now maxIdle : Int) :
    List (String × JObj) → List (String × JObj)
  | [] => []
  | (sid, sess) :: rest =>
    if tsIdle now maxIdle sess then scavengeFilter now maxIdle rest
    else (sid, sess) :: scavengeFilter now maxIdle rest

/-- One tick of the scavenge timer started by `_timers`: it sweeps only
the in-memory cache and never touches the store. -/
def scavengeTick (s : SState) (now maxIdle : Int) : SState :=
  ⟨scavengeFilter now maxIdle s.sessions, s.pouch⟩

/-- One change-feed event as `_subscribe` handles it: when the cache holds
a record for the document's identifier, the incoming document is merged
into it in place (incoming fields win); otherwise the event is ignored. -/
def onChange (s : SState) (i : String) (doc : JObj) : SState :=
  match alookup s.sessions i with
  | some old => ⟨aset s.sessions i (assign old doc), s.pouch⟩
  | none => s

/-- The recognized configuration options with their module defaults. -/
structure Opts where
  maxIdle : Int
  scavenge : Int
  purge : Int
deriving DecidableEq, Repr

/-- The module-level `DEF_OPTS` object as initially loaded. -/
def DEF_OPTS : Opts := ⟨5 * 60 * 1000, 1000, 5 * 60 * 1000⟩

/-- A caller-supplied options object: each key may be present or omitted. -/
structure OptsIn where
  maxIdle : Option Int
  scavenge : Option Int
  purge : Option Int
deriving DecidableEq, Repr

/-- `Object.assign(DEF_OPTS, options)`: supplied keys overwrite the
target's fields, omitted keys leave them. -/
def assignOpts (target : Opts) (o : OptsIn) : Opts :=
  ⟨o.maxIdle.getD target.maxIdle, o.scavenge.getD target.scavenge,
   o.purge.getD target.purge⟩

/-- The constructor's options handling: `this.options =
Object.assign(DEF_OPTS, options)` mutates the module-level `DEF_OPTS` and
the store's options alias it. The result is (module-level defaults after
construction, the store's observed options). -/
def construct (defOpts : Opts) (o : OptsIn) : Opts × Opts :=
  let d := assignOpts defOpts o
  (d, d)

/-- The whole cache is well formed: no duplicate session identifiers and
every cached record well formed. -/
def wfCache (c : List (String × JObj)) : Prop :=
  (c.map Prod.fst).Nodup ∧ ∀ kv ∈ c, wfObj kv.2

instance (c : List (String × JObj)) : Decidable (wfCache c) := by
  unfold wfCache; infer_instance

/-- The database is well formed: no duplicate document identifiers and
every stored body well formed. -/
def wfDb (db : List PDoc) : Prop :=
  (db.map PDoc.id).Nodup ∧ ∀ pd ∈ db, wfObj pd.body

instance (db : List PDoc) : Decidable (wfDb db) := by
  unfold wfDb; infer_instance

/-- A well-formed store state. -/
def wfState (s : SState) : Prop := wfCache s.sessions ∧ wfDb s.pouch

instance (s : SState) : Decidable (wfState s) := by
  unfold wfState; infer_instance

end PouchSession


namespace PouchSession

theorem alookup_aset_self {α : Type} (l : List (String × α)) (k : String) (v : α) :
    alookup (aset l k v) k = some v := by
  induction l with
  | nil => simp [aset, alookup]
  | cons hd tl ih =>
    by_cases h : hd.1 = k
    · simp [aset, h, alookup]
    · simp [aset, h, alookup, ih]

theorem alookup_aset_ne {α : Type} (l : List (String × α)) (k k' : String) (v : α)
    (h : k' ≠ k) : alookup (aset l k v) k' = alookup l k' := by
  induction l with
  | nil => simp [aset, alookup, Ne.symm h]
  | cons hd tl ih =>
    by_cases hh : hd.1 = k
    · subst hh
      simp [aset, alookup, Ne.symm h]
    · by_cases hk' : hd.1 = k'
      · simp [aset, hh, alookup, hk', h]
      · simp [aset, hh, alookup, hk', ih]

theorem alookup_eq_none_of_not_mem {α : Type} (l : List (String × α)) (k : String)
    (h : k ∉ l.map Prod.fst) : alookup l k = none := by
  induction l with
  | nil => simp [alookup]
  | cons hd tl ih =>
    simp only [List.map_cons, List.mem_cons] at h
    push_neg at h
    simp [alookup, Ne.symm h.1, ih h.2]

theorem alookup_mem {α : Type} (l : List (String × α)) (k : String) (v : α)
    (h : alookup l k = some v) : (k, v) ∈ l := by
  induction l with
  | nil => simp [alookup] at h
  | cons hd tl ih =>
    by_cases hh : hd.1 = k
    · simp only [alookup, hh, if_pos, Option.some.injEq] at h
      have : hd = (k, v) := by
        cases hd
        simp only [Prod.mk.injEq]
        exact ⟨hh, h⟩
      rw [← this]
      exact List.mem_cons_self hd tl
    · simp only [alookup, hh, if_false] at h
      exact List.mem_cons_of_mem _ (ih h)

theorem aset_eq_of_alookup {α : Type} (l : List (String × α)) (k : String) (v : α)
    (hnd : (l.map Prod.fst).Nodup) (h : alookup l k = some v) : aset l k v = l := by
  induction l with
  | nil => simp [alookup] at h
  | cons hd tl ih =>
    simp only [List.map_cons, List.nodup_cons] at hnd
    by_cases hh : hd.1 = k
    · simp only [alookup, hh, if_pos, Option.some.injEq] at h
      have : (k, v) = hd := by
        cases hd
        simp only [Prod.mk.injEq]
        exact ⟨hh.symm, h.symm⟩
      simp [aset, hh, this]
    · simp only [alookup, hh, if_false] at h
      simp [aset, hh, ih hnd.2 h]

theorem keys_aset_subset {α : Type} (l : List (String × α)) (k x : String) (v : α)
    (hx : x ∈ (aset l k v).map Prod.fst) : x ∈ l.map Prod.fst ∨ x = k := by
  induction l with
  | nil =>
    simp [aset] at hx
    exact Or.inr hx
  | cons hd tl ih =>
    by_cases hh : hd.1 = k
    · simp only [aset, hh, if_pos, List.map_cons, List.mem_cons] at hx
      rcases hx with hx | hx
      · exact Or.inr hx
      · exact Or.inl (by simp only [List.map_cons, List.mem_cons]; exact Or.inr hx)
    · simp only [aset, hh, if_false, List.map_cons, List.mem_cons] at hx
      rcases hx with hx | hx
      · exact Or.inl (by simp only [List.map_cons, List.mem_cons]; exact Or.inl hx)
      · rcases ih hx with hx' | hx'
        · exact Or.inl (by simp only [List.map_cons, List.mem_cons]; exact Or.inr hx')
        · exact Or.inr hx'

theorem keys_aset_nodup {α : Type} (l : List (String × α)) (k : String) (v : α)
    (hnd : (l.map Prod.fst).Nodup) : ((aset l k v).map Prod.fst).Nodup := by
  induction l with
  | nil => simp [aset]
  | cons hd tl ih =>
    simp only [List.map_cons, List.nodup_cons] at hnd
    by_cases hh : hd.1 = k
    · subst hh
      simp only [aset, if_pos, List.map_cons, List.nodup_cons]
      exact ⟨hnd.1, hnd.2⟩
    · have hmem : hd.1 ∉ (aset tl k v).map Prod.fst := by
        intro hcon
        rcases keys_aset_subset tl k hd.1 v hcon with hin | hkk
        · exact hnd.1 hin
        · exact hh hkk
      simp only [aset, hh, if_false, List.map_cons, List.nodup_cons]
      exact ⟨hmem, ih hnd.2⟩

theorem alookup_adel_self {α : Type} (l : List (String × α)) (k : String) :
    alookup (adel l k) k = none := by
  induction l with
  | nil => simp [adel, alookup]
  | cons hd tl ih =>
    by_cases hh : hd.1 = k
    · simp [adel, hh, ih]
    · simp [adel, hh, alookup, ih]

end PouchSession

namespace PouchSession

theorem assign_nil (t : JObj) : assign t [] = t := rfl

theorem assign_cons (t : JObj) (kv : String × JVal) (rest : List (String × JVal)) :
    assign t (kv :: rest) = assign (jset t kv.1 kv.2) rest := rfl

theorem jget_assign_of_none (t s : JObj) (k : String) (h : jget s k = none) :
    jget (assign t s) k = jget t k := by
  induction s generalizing t with
  | nil => rfl
  | cons hd tl ih =>
    obtain ⟨k0, v0⟩ := hd
    simp only [jget, alookup] at h
    by_cases hh : k0 = k
    · simp [hh] at h
    · simp only [hh, if_false] at h
      rw [assign_cons, ih _ h]
      exact alookup_aset_ne t k0 k v0 (Ne.symm hh)

theorem jget_assign_of_some (t s : JObj) (k : String) (v : JVal)
    (hwf : wfObj s) (h : jget s k = some v) : jget (assign t s) k = some v := by
  induction s generalizing t with
  | nil => simp [jget, alookup] at h
  | cons hd tl ih =>
    obtain ⟨k0, v0⟩ := hd
    have hnd : k0 ∉ tl.map Prod.fst ∧ (tl.map Prod.fst).Nodup := by
      simpa [wfObj] using hwf
    by_cases hh : k0 = k
    · subst hh
      simp only [jget, alookup, if_pos, Option.some.injEq] at h
      have htl : jget tl k0 = none := alookup_eq_none_of_not_mem tl k0 hnd.1
      rw [assign_cons, jget_assign_of_none _ _ _ htl]
      simpa [h] using alookup_aset_self t k0 v0
    · simp only [jget, alookup, hh, if_false] at h
      rw [assign_cons]
      exact ih _ hnd.2 h

theorem wfObj_jset (o : JObj) (k : String) (v : JVal) (h : wfObj o) :
    wfObj (jset o k v) :=
  keys_aset_nodup o k v h

theorem wfObj_servedDoc (pd : PDoc) (h : wfObj pd.body) : wfObj (servedDoc pd) :=
  wfObj_jset _ _ _ (wfObj_jset _ _ _ h)

theorem wfObj_setSession2 (now : Int) (sid : String) (session : JObj)
    (h : wfObj session) : wfObj (setSession2 now sid session) := by
  unfold setSession2
  by_cases hid : ((jget session "_id").map JVal.truthy).getD false = true
  · simp only [hid, if_true]
    exact wfObj_jset _ _ _ h
  · simp only [hid, if_false]
    exact wfObj_jset _ _ _ (wfObj_jset _ _ _ h)

theorem jget_setSession2_ts (now : Int) (sid : String) (session : JObj) :
    jget (setSession2 now sid session) "$ts" = some (.num now) := by
  unfold setSession2
  exact alookup_aset_self _ _ _

theorem jget_setSession2_other (now : Int) (sid : String) (session : JObj)
    (k : String) (hid : k ≠ "_id") (hts : k ≠ "$ts") :
    jget (setSession2 now sid session) k = jget session k := by
  unfold setSession2
  rw [show (jget (jset (if ((jget session "_id").map JVal.truthy).getD false then session
      else jset session "_id" (.str sid)) "$ts" (.num now)) k : Option JVal) =
      jget (if ((jget session "_id").map JVal.truthy).getD false then session
      else jset session "_id" (.str sid)) k from alookup_aset_ne _ _ _ _ hts]
  by_cases hif : ((jget session "_id").map JVal.truthy).getD false = true
  · simp only [hif, if_true]
  · simp only [hif, if_false]
    exact alookup_aset_ne _ _ _ _ hid

theorem jget_setMerged_ts (s : SState) (now : Int) (sid : String) (session : JObj)
    (hwf : wfObj session) :
    jget (setMerged s now sid session) "$ts" = some (.num now) := by
  unfold setMerged
  exact jget_assign_of_some _ _ _ _ (wfObj_setSession2 now sid session hwf)
    (jget_setSession2_ts now sid session)

theorem jget_setMerged_of_some (s : SState) (now : Int) (sid : String)
    (session : JObj) (k : String) (v : JVal) (hwf : wfObj session)
    (hid : k ≠ "_id") (hts : k ≠ "$ts") (h : jget session k = some v) :
    jget (setMerged s now sid session) k = some v := by
  unfold setMerged
  exact jget_assign_of_some _ _ _ _ (wfObj_setSession2 now sid session hwf)
    (by rw [jget_setSession2_other now sid session k hid hts]; exact h)

theorem set_state_sessions (s : SState) (now : Int) (sid : String) (session : JObj) :
    (SessionStore.set s now sid session).state.sessions
      = aset s.sessions sid (setMerged s now sid session) := by
  simp only [SessionStore.set]
  cases h : pouchPut s.pouch (setMerged s now sid session) <;> simp [h]

theorem set_puts_eq_one (s : SState) (now : Int) (sid : String) (session : JObj) :
    (SessionStore.set s now sid session).puts = 1 := by
  simp only [SessionStore.set]
  cases h : pouchPut s.pouch (setMerged s now sid session) <;> simp [h]

theorem set_error_shape (s : SState) (now : Int) (sid : String) (session : JObj)
    (e : PErr) (h : pouchPut s.pouch (setMerged s now sid session) = .error e) :
    SessionStore.set s now sid session =
      ⟨⟨aset s.sessions sid (setMerged s now sid session), s.pouch⟩, [.err e], 1⟩ := by
  simp only [SessionStore.set, h]

theorem set_ok_shape (s : SState) (now : Int) (sid : String) (session : JObj)
    (db1 : List PDoc) (h : pouchPut s.pouch (setMerged s now sid session) = .ok db1) :
    SessionStore.set s now sid session =
      ⟨⟨aset s.sessions sid (setMerged s now sid session), db1⟩, [.ok none], 1⟩ := by
  simp only [SessionStore.set, h]

theorem touch_eq_of_error (s : SState) (now : Int) (sid : String) (sess : JObj)
    (e : PErr) (h : touchLookup s sid = .error e) :
    SessionStore.touch s now sid sess = ⟨s, [.err e], 0⟩ := by
  simp only [SessionStore.touch, h]

theorem touch_eq_of_fresh (s : SState) (now : Int) (sid : String) (sess old : JObj)
    (h : touchLookup s sid = .ok old) (hst : touchStale now old = false) :
    SessionStore.touch s now sid sess = ⟨s, [.ok none], 0⟩ := by
  simp only [SessionStore.touch, h, hst]
  simp

theorem touch_eq_of_stale (s : SState) (now : Int) (sid : String) (sess old : JObj)
    (h : touchLookup s sid = .ok old) (hst : touchStale now old = true) :
    SessionStore.touch s now sid sess =
      ⟨(SessionStore.set ⟨aset s.sessions sid old, s.pouch⟩ now sid old).state,
       (SessionStore.set ⟨aset s.sessions sid old, s.pouch⟩ now sid old).cbs ++ [.ok none],
       (SessionStore.set ⟨aset s.sessions sid old, s.pouch⟩ now sid old).puts⟩ := by
  simp only [SessionStore.touch, h, hst]
  simp

theorem touch_puts_le_one (s : SState) (now : Int) (sid : String) (sess : JObj) :
    (SessionStore.touch s now sid sess).puts ≤ 1 := by
  cases h : touchLookup s sid with
  | error e => simp [touch_eq_of_error s now sid sess e h]
  | ok old =>
    cases hst : touchStale now old
    · simp [touch_eq_of_fresh s now sid sess old h hst]
    · rw [touch_eq_of_stale s now sid sess old h hst]
      simp [set_puts_eq_one]

theorem dbFind_mem (db : List PDoc) (i : String) (pd : PDoc)
    (h : dbFind db i = some pd) : pd ∈ db := by
  induction db with
  | nil => simp [dbFind] at h
  | cons hd tl ih =>
    by_cases hh : hd.id = i
    · simp only [dbFind, hh, if_pos, Option.some.injEq] at h
      rw [← h]
      exact List.mem_cons_self hd tl
    · simp only [dbFind, hh, if_false] at h
      exact List.mem_cons_of_mem _ (ih h)

theorem wfObj_pouchGet (db : List PDoc) (i : String) (doc : JObj)
    (hdb : wfDb db) (h : pouchGet db i = .ok doc) : wfObj doc := by
  unfold pouchGet at h
  cases hf : dbFind db i with
  | none => rw [hf] at h; cases h
  | some pd =>
    rw [hf] at h
    have hd : servedDoc pd = doc := by
      cases h
      rfl
    exact hd ▸ wfObj_servedDoc pd (hdb.2 pd (dbFind_mem db i pd hf))

theorem wfObj_alookup_cache (c : List (String × JObj)) (sid : String) (o : JObj)
    (hc : wfCache c) (h : alookup c sid = some o) : wfObj o :=
  hc.2 (sid, o) (alookup_mem c sid o h)

theorem wfObj_touchLookup (s : SState) (sid : String) (old : JObj)
    (hs : wfState s) (h : touchLookup s sid = .ok old) : wfObj old := by
  unfold touchLookup at h
  cases hc : alookup s.sessions sid with
  | some o =>
    rw [hc] at h
    have : o = old := by cases h; rfl
    exact this ▸ wfObj_alookup_cache s.sessions sid o hs.1 hc
  | none =>
    rw [hc] at h
    exact wfObj_pouchGet s.pouch sid old hs.2 h

end PouchSession

namespace PouchSession

theorem scavengeFilter_of_none (now mi : Int) (l : List (String × JObj))
    (sid : String) (h : alookup l sid = none) :
    alookup (scavengeFilter now mi l) sid = none := by
  induction l with
  | nil => simp [scavengeFilter, alookup]
  | cons hd tl ih =>
    obtain ⟨k0, r0⟩ := hd
    simp only [alookup] at h
    by_cases hh : k0 = sid
    · simp [hh] at h
    · simp only [hh, if_false] at h
      simp only [scavengeFilter]
      cases tsIdle now mi r0
      · simp [alookup, hh, ih h]
      · simp [ih h]

theorem scavengeFilter_keeps (now mi : Int) (l : List (String × JObj))
    (sid : String) (rec : JObj) (hnd : (l.map Prod.fst).Nodup)
    (h : alookup l sid = some rec) (hidle : tsIdle now mi rec = false) :
    alookup (scavengeFilter now mi l) sid = some rec := by
  induction l with
  | nil => simp [alookup] at h
  | cons hd tl ih =>
    obtain ⟨k0, r0⟩ := hd
    simp only [List.map_cons, List.nodup_cons] at hnd
    by_cases hh : k0 = sid
    · simp only [alookup, hh, if_pos, Option.some.injEq] at h
      subst h
      simp [scavengeFilter, hidle, alookup, hh]
    · simp only [alookup, hh, if_false] at h
      simp only [scavengeFilter]
      cases tsIdle now mi r0
      · simp [alookup, hh, ih hnd.2 h]
      · simp [ih hnd.2 h]

theorem scavengeFilter_drops (now mi : Int) (l : List (String × JObj))
    (sid : String) (rec : JObj) (hnd : (l.map Prod.fst).Nodup)
    (h : alookup l sid = some rec) (hidle : tsIdle now mi rec = true) :
    alookup (scavengeFilter now mi l) sid = none := by
  induction l with
  | nil => simp [alookup] at h
  | cons hd tl ih =>
    obtain ⟨k0, r0⟩ := hd
    simp only [List.map_cons, List.nodup_cons] at hnd
    by_cases hh : k0 = sid
    · simp only [alookup, hh, if_pos, Option.some.injEq] at h
      subst h
      have htl : alookup tl sid = none :=
        alookup_eq_none_of_not_mem tl sid (hh ▸ hnd.1)
      simp [scavengeFilter, hidle, scavengeFilter_of_none now mi tl sid htl]
    · simp only [alookup, hh, if_false] at h
      simp only [scavengeFilter]
      cases tsIdle now mi r0
      · simp [alookup, hh, ih hnd.2 h]
      · simp [ih hnd.2 h]

theorem dbDel_eq_of_not_mem (db : List PDoc) (i : String)
    (h : i ∉ db.map PDoc.id) : dbDel db i = db := by
  induction db with
  | nil => rfl
  | cons hd tl ih =>
    simp only [List.map_cons, List.mem_cons] at h
    push_neg at h
    simp [dbDel, Ne.symm h.1, ih h.2]

theorem bulkDelOne_tombstone_head (pd : PDoc) (tl : List PDoc)
    (hmem : pd.id ∉ tl.map PDoc.id) :
    bulkDelOne (pd :: tl) (tombstone pd) = tl := by
  have h1 : jget (tombstone pd) "_id" = some (.str pd.id) := by
    simp [tombstone, jget, alookup]
  have h2 : jget (tombstone pd) "_rev" = some (.num pd.rev) := by
    simp [tombstone, jget, alookup]
  have h3 : jget (tombstone pd) "_deleted" = some (.boolean true) := by
    simp [tombstone, jget, alookup]
  simp only [bulkDelOne, h1, h2, h3]
  simp [dbFind, dbDel, dbDel_eq_of_not_mem tl pd.id hmem]

theorem bulk_tombstones_empty (db : List PDoc) (hnd : (db.map PDoc.id).Nodup) :
    pouchBulkDocs db (db.map tombstone) = [] := by
  induction db with
  | nil => rfl
  | cons pd tl ih =>
    simp only [List.map_cons, List.nodup_cons] at hnd
    have h1 : bulkDelOne (pd :: tl) (tombstone pd) = tl :=
      bulkDelOne_tombstone_head pd tl hnd.1
    simp only [pouchBulkDocs, List.map_cons, List.foldl_cons, h1]
    exact ih hnd.2

theorem getCb_of_cache_hit (s : SState) (sid : String) (sess : JObj)
    (h : alookup s.sessions sid = some sess) :
    getCb s sid = (none, some sess) := by
  simp [getCb, h]

theorem get_of_cache_hit (s : SState) (sid : String) (sess : JObj)
    (h : alookup s.sessions sid = some sess) :
    SessionStore.get s sid = ⟨s, [.ok (some sess)], 0⟩ := by
  simp [SessionStore.get, getCb_of_cache_hit s sid sess h]

end PouchSession

namespace PouchSession

/-- C9: a get that misses the cache and succeeds by reading the record from
the persistent store leaves the whole state, the cache included, unchanged
and hands the store's record to the callback; a repeated get therefore
reads through to the store again. -/
theorem get_miss_reads_through_without_caching (s : SState) (sid : String)
    (rec : JObj) (hmiss : alookup s.sessions sid = none)
    (hstore : pouchGet s.pouch sid = .ok rec) :
    SessionStore.get s sid = ⟨s, [.ok (some rec)], 0⟩ ∧
    SessionStore.get (SessionStore.get s sid).state sid = SessionStore.get s sid := by
  have h1 : SessionStore.get s sid = ⟨s, [.ok (some rec)], 0⟩ := by
    simp [SessionStore.get, getCb, hmiss, hstore]
  refine ⟨h1, ?_⟩
  rw [h1]
  exact h1

/-- C9 witness: a concrete cache-miss get served from the store, leaving
the state unchanged. -/
theorem get_miss_reads_through_without_caching_witness :
    alookup (SState.mk [] [⟨"a", 1, [("u", JVal.str "x")]⟩]).sessions "a" = none ∧
    pouchGet (SState.mk [] [⟨"a", 1, [("u", JVal.str "x")]⟩]).pouch "a" =
      .ok [("u", JVal.str "x"), ("_id", JVal.str "a"), ("_rev", JVal.num 1)] ∧
    SessionStore.get (SState.mk [] [⟨"a", 1, [("u", JVal.str "x")]⟩]) "a" =
      ⟨SState.mk [] [⟨"a", 1, [("u", JVal.str "x")]⟩],
       [.ok (some [("u", JVal.str "x"), ("_id", JVal.str "a"), ("_rev", JVal.num 1)])],
       0⟩ :=
  ⟨by decide, by decide,
    (get_miss_reads_through_without_caching
      (SState.mk [] [⟨"a", 1, [("u", JVal.str "x")]⟩]) "a"
      [("u", JVal.str "x"), ("_id", JVal.str "a"), ("_rev", JVal.num 1)]
      (by decide) (by decide)).1⟩

/-- C10: constructing a store mutates the module-level shared defaults
object rather than a per-instance copy: the store's options alias the
mutated defaults, and any option value supplied to the first constructor
becomes the default observed by a second store whose options omit that
key. -/
theorem constructor_mutates_shared_defaults (d : Opts) (o1 o2 : OptsIn) :
    (construct d o1).1 = (construct d o1).2 ∧
    (∀ v, o1.maxIdle = some v → o2.maxIdle = none →
      ((construct (construct d o1).1 o2).2).maxIdle = v) ∧
    (∀ v, o1.scavenge = some v → o2.scavenge = none →
      ((construct (construct d o1).1 o2).2).scavenge = v) ∧
    (∀ v, o1.purge = some v → o2.purge = none →
      ((construct (construct d o1).1 o2).2).purge = v) := by
  refine ⟨rfl, ?_, ?_, ?_⟩ <;> intro v h1 h2 <;> simp [construct, assignOpts, h1, h2]

/-- C10 witness: maxIdle 7 supplied to the first constructor is the
default the second store observes when its own options omit the key. -/
theorem constructor_mutates_shared_defaults_witness :
    ((construct (construct DEF_OPTS (OptsIn.mk (some 7) none none)).1
      (OptsIn.mk none none none)).2).maxIdle = 7 :=
  (constructor_mutates_shared_defaults DEF_OPTS (OptsIn.mk (some 7) none none)
    (OptsIn.mk none none none)).2.1 7 rfl rfl

/-- C8: clear lists every stored document and issues a bulk tombstone
delete for all of them; after a successful clear the store holds no
documents, so length reports 0 and all returns the empty collection. -/
theorem clear_then_length_zero_all_empty (s : SState)
    (hnd : (s.pouch.map PDoc.id).Nodup) :
    (SessionStore.clear s).cbs = [Cb.ok none] ∧
    (SessionStore.clear s).state.pouch = [] ∧
    (SessionStore.length (SessionStore.clear s).state).cbs = [Cb.okLen 0] ∧
    (SessionStore.all (SessionStore.clear s).state).cbs = [Cb.okDocs []] := by
  have hempty : pouchBulkDocs s.pouch (s.pouch.map tombstone) = [] :=
    bulk_tombstones_empty s.pouch hnd
  refine ⟨rfl, ?_, ?_, ?_⟩ <;>
    simp [SessionStore.clear, SessionStore.length, SessionStore.all, hempty]

/-- C8 witness: clearing a two-document store empties it; length then
reports 0 and all returns the empty collection. -/
theorem clear_then_length_zero_all_empty_witness :
    (SessionStore.clear
      (SState.mk [("x", [])] [⟨"a", 3, [("u", JVal.num 1)]⟩, ⟨"b", 1, []⟩])).state.pouch
      = [] ∧
    (SessionStore.length (SessionStore.clear
      (SState.mk [("x", [])] [⟨"a", 3, [("u", JVal.num 1)]⟩, ⟨"b", 1, []⟩])).state).cbs
      = [Cb.okLen 0] :=
  ⟨(clear_then_length_zero_all_empty
      (SState.mk [("x", [])] [⟨"a", 3, [("u", JVal.num 1)]⟩, ⟨"b", 1, []⟩])
      (by decide)).2.1,
   (clear_then_length_zero_all_empty
      (SState.mk [("x", [])] [⟨"a", 3, [("u", JVal.num 1)]⟩, ⟨"b", 1, []⟩])
      (by decide)).2.2.1⟩

/-- C6: one scavenge tick at time now removes from the cache every record
whose (now - lastTouched) exceeds maxIdle, retains every record within the
threshold, and performs no deletion or write against the persistent
store. -/
theorem scavenge_tick_evicts_only_idle_cache_entries (s : SState)
    (now maxIdle : Int) (sid : String) (rec : JObj) (t : Int)
    (hnd : (s.sessions.map Prod.fst).Nodup)
    (hrec : alookup s.sessions sid = some rec)
    (hts : jget rec "$ts" = some (.num t)) :
    (now - t > maxIdle → alookup (scavengeTick s now maxIdle).sessions sid = none) ∧
    (¬ now - t > maxIdle →
      alookup (scavengeTick s now maxIdle).sessions sid = some rec) ∧
    (scavengeTick s now maxIdle).pouch = s.pouch := by
  have hidle : tsIdle now maxIdle rec = decide (now - t > maxIdle) := by
    simp [tsIdle, hts]
  refine ⟨?_, ?_, rfl⟩
  · intro hgt
    exact scavengeFilter_drops now maxIdle s.sessions sid rec hnd hrec
      (by simp [hidle, hgt])
  · intro hle
    exact scavengeFilter_keeps now maxIdle s.sessions sid rec hnd hrec
      (by simp [hidle, hle])

/-- C6 witness: at time 100 with maxIdle 50, the record stamped 0 is
evicted from the cache while the store is untouched. -/
theorem scavenge_tick_evicts_only_idle_cache_entries_witness :
    alookup (scavengeTick
      (SState.mk [("a", [("$ts", JVal.num 0)]), ("b", [("$ts", JVal.num 90)])]
        [⟨"a", 1, []⟩]) 100 50).sessions "a" = none ∧
    (scavengeTick
      (SState.mk [("a", [("$ts", JVal.num 0)]), ("b", [("$ts", JVal.num 90)])]
        [⟨"a", 1, []⟩]) 100 50).pouch = [⟨"a", 1, []⟩] :=
  ⟨(scavenge_tick_evicts_only_idle_cache_entries
      (SState.mk [("a", [("$ts", JVal.num 0)]), ("b", [("$ts", JVal.num 90)])]
        [⟨"a", 1, []⟩]) 100 50 "a" [("$ts", JVal.num 0)] 0
      (by decide) (by decide) (by decide)).1 (by decide),
   (scavenge_tick_evicts_only_idle_cache_entries
      (SState.mk [("a", [("$ts", JVal.num 0)]), ("b", [("$ts", JVal.num 90)])]
        [⟨"a", 1, []⟩]) 100 50 "a" [("$ts", JVal.num 0)] 0
      (by decide) (by decide) (by decide)).2.2⟩

/-- C7: a change-feed event for an identifier the cache holds merges the
incoming document field-wise into the cached record with incoming values
winning, and a subsequent get observes the merge; an event for an
identifier absent from the cache leaves the state entirely unchanged. -/
theorem change_feed_merges_only_cached (s : SState) (i : String) (doc : JObj)
    (hdoc : wfObj doc) :
    (∀ old, alookup s.sessions i = some old →
      alookup (onChange s i doc).sessions i = some (assign old doc) ∧
      (∀ k v, jget doc k = some v → jget (assign old doc) k = some v) ∧
      (∀ k, jget doc k = none → jget (assign old doc) k = jget old k) ∧
      (onChange s i doc).pouch = s.pouch ∧
      SessionStore.get (onChange s i doc) i =
        ⟨onChange s i doc, [.ok (some (assign old doc))], 0⟩) ∧
    (alookup s.sessions i = none → onChange s i doc = s) := by
  constructor
  · intro old hold
    have hcache : alookup (onChange s i doc).sessions i = some (assign old doc) := by
      simp [onChange, hold, alookup_aset_self]
    refine ⟨hcache, ?_, ?_, ?_, ?_⟩
    · intro k v hk
      exact jget_assign_of_some old doc k v hdoc hk
    · intro k hk
      exact jget_assign_of_none old doc k hk
    · simp [onChange, hold]
    · exact get_of_cache_hit _ i _ hcache
  · intro hnone
    simp [onChange, hnone]

/-- C7 witness: a concrete feed event overwrites the cached field u and a
get then observes it; the same event on an empty cache changes nothing. -/
theorem change_feed_merges_only_cached_witness :
    alookup (onChange
      (SState.mk [("a", [("u", JVal.str "x"), ("$ts", JVal.num 1)])] [])
      "a" [("u", JVal.str "y")]).sessions "a" =
      some (assign [("u", JVal.str "x"), ("$ts", JVal.num 1)] [("u", JVal.str "y")]) ∧
    onChange (SState.mk [] []) "a" [("u", JVal.str "y")] = SState.mk [] [] :=
  ⟨((change_feed_merges_only_cached
      (SState.mk [("a", [("u", JVal.str "x"), ("$ts", JVal.num 1)])] [])
      "a" [("u", JVal.str "y")] (by decide)).1
      [("u", JVal.str "x"), ("$ts", JVal.num 1)] (by decide)).1,
   (change_feed_merges_only_cached (SState.mk [] []) "a" [("u", JVal.str "y")]
      (by decide)).2 (by decide)⟩

end PouchSession

namespace PouchSession

/-- C4: after a successful set, an immediate get on the same identifier
returns the cached merged record: it carries every field passed to set
(other than the system fields underscore-id and dollar-ts, which set
overwrites) with its written value, and its lastTouched stamp is the time
of that set. -/
theorem set_then_get_returns_merged_record (s : SState) (now : Int)
    (sid : String) (session : JObj) (db1 : List PDoc) (hwf : wfObj session)
    (hok : pouchPut s.pouch (setMerged s now sid session) = .ok db1) :
    SessionStore.get (SessionStore.set s now sid session).state sid =
      ⟨(SessionStore.set s now sid session).state,
       [.ok (some (setMerged s now sid session))], 0⟩ ∧
    (∀ k v, k ≠ "_id" → k ≠ "$ts" → jget session k = some v →
      jget (setMerged s now sid session) k = some v) ∧
    jget (setMerged s now sid session) "$ts" = some (.num now) := by
  have hcache : alookup (SessionStore.set s now sid session).state.sessions sid
      = some (setMerged s now sid session) := by
    rw [set_state_sessions]
    exact alookup_aset_self _ _ _
  refine ⟨get_of_cache_hit _ _ _ hcache, ?_,
    jget_setMerged_ts s now sid session hwf⟩
  intro k v hid hts hk
  exact jget_setMerged_of_some s now sid session k v hwf hid hts hk

/-- C4 witness: a concrete successful set of a fresh record followed by a
get returning it, with the written field u intact and the stamp of the
set. -/
theorem set_then_get_returns_merged_record_witness :
    jget (setMerged (SState.mk [] []) 1 "s" [("u", JVal.str "a")]) "u"
      = some (JVal.str "a") ∧
    jget (setMerged (SState.mk [] []) 1 "s" [("u", JVal.str "a")]) "$ts"
      = some (JVal.num 1) :=
  ⟨((set_then_get_returns_merged_record (SState.mk [] []) 1 "s"
      [("u", JVal.str "a")]
      [⟨"s", 1, [("u", JVal.str "a"), ("_id", JVal.str "s"), ("$ts", JVal.num 1)]⟩]
      (by decide) (by decide)).2.1 "u" (JVal.str "a")
      (by decide) (by decide) (by decide)),
   (set_then_get_returns_merged_record (SState.mk [] []) 1 "s"
      [("u", JVal.str "a")]
      [⟨"s", 1, [("u", JVal.str "a"), ("_id", JVal.str "s"), ("$ts", JVal.num 1)]⟩]
      (by decide) (by decide)).2.2⟩

/-- C5: a touch that finds an existing record less than 1 second old
completes with no store write and no state change; two touches on the same
identifier within 1 second perform at most one store write in total; and a
touch whose cached record is older than 1 second behaves like set on that
existing record, with one extra callback invocation appended. -/
theorem touch_debounces_store_writes (s : SState) (sid : String)
    (sess1 sess2 : JObj) (t1 t2 : Int) (hs : wfState s)
    (h12 : t2 ≤ t1 + 1000) :
    ((SessionStore.touch s t1 sid sess1).puts +
      (SessionStore.touch (SessionStore.touch s t1 sid sess1).state t2 sid
        sess2).puts ≤ 1) ∧
    (∀ old, touchLookup s sid = .ok old → touchStale t1 old = false →
      SessionStore.touch s t1 sid sess1 = ⟨s, [.ok none], 0⟩) ∧
    (∀ old, alookup s.sessions sid = some old → touchStale t1 old = true →
      SessionStore.touch s t1 sid sess1 =
        ⟨(SessionStore.set s t1 sid old).state,
         (SessionStore.set s t1 sid old).cbs ++ [.ok none],
         (SessionStore.set s t1 sid old).puts⟩) := by
  refine ⟨?_, ?_, ?_⟩
  · cases h : touchLookup s sid with
    | error e =>
      rw [touch_eq_of_error s t1 sid sess1 e h]
      simpa using touch_puts_le_one s t2 sid sess2
    | ok old =>
      cases hst : touchStale t1 old with
      | false =>
        rw [touch_eq_of_fresh s t1 sid sess1 old h hst]
        simpa using touch_puts_le_one s t2 sid sess2
      | true =>
        rw [touch_eq_of_stale s t1 sid sess1 old h hst]
        have hwold : wfObj old := wfObj_touchLookup s sid old hs h
        have hcache : alookup (SessionStore.set
            ⟨aset s.sessions sid old, s.pouch⟩ t1 sid old).state.sessions sid
            = some (setMerged ⟨aset s.sessions sid old, s.pouch⟩ t1 sid old) := by
          rw [set_state_sessions]
          exact alookup_aset_self _ _ _
        have hts2 : jget (setMerged ⟨aset s.sessions sid old, s.pouch⟩ t1 sid old)
            "$ts" = some (.num t1) :=
          jget_setMerged_ts _ t1 sid old hwold
        have hlk2 : touchLookup (SessionStore.set
            ⟨aset s.sessions sid old, s.pouch⟩ t1 sid old).state sid
            = .ok (setMerged ⟨aset s.sessions sid old, s.pouch⟩ t1 sid old) := by
          simp [touchLookup, hcache]
        have hfresh2 : touchStale t2
            (setMerged ⟨aset s.sessions sid old, s.pouch⟩ t1 sid old) = false := by
          simp only [touchStale, hts2]
          simp
          omega
        rw [touch_eq_of_fresh _ t2 sid sess2 _ hlk2 hfresh2]
        simp [set_puts_eq_one]
  · intro old h hst
    exact touch_eq_of_fresh s t1 sid sess1 old h hst
  · intro old hold hst
    have hlk : touchLookup s sid = .ok old := by simp [touchLookup, hold]
    have hset : aset s.sessions sid old = s.sessions :=
      aset_eq_of_alookup s.sessions sid old hs.1.1 hold
    have := touch_eq_of_stale s t1 sid sess1 old hlk hst
    rw [hset] at this
    exact this

/-- C5 witness: the record stamped 300 ms before the first touch is fresh,
so the touch at time 1000 changes nothing and writes nothing; the second
touch at time 1900 (within 1 second of the first) keeps the total store
writes at most one. -/
theorem touch_debounces_store_writes_witness :
    SessionStore.touch (SState.mk [("s", [("$ts", JVal.num 700)])] []) 1000 "s" []
      = ⟨SState.mk [("s", [("$ts", JVal.num 700)])] [], [.ok none], 0⟩ ∧
    ((SessionStore.touch (SState.mk [("s", [("$ts", JVal.num 700)])] [])
        1000 "s" []).puts +
      (SessionStore.touch (SessionStore.touch
        (SState.mk [("s", [("$ts", JVal.num 700)])] []) 1000 "s" []).state
        1900 "s" []).puts ≤ 1) :=
  ⟨(touch_debounces_store_writes (SState.mk [("s", [("$ts", JVal.num 700)])] [])
      "s" [] [] 1000 1900 (by decide) (by decide)).2.1
      [("$ts", JVal.num 700)] (by decide) (by decide),
   (touch_debounces_store_writes (SState.mk [("s", [("$ts", JVal.num 700)])] [])
      "s" [] [] 1000 1900 (by decide) (by decide)).1⟩

/-- C1 counterexample: a concrete set whose store write fails with a
revision conflict nevertheless changes the cache: the merged record is
present afterwards, so the pre-call cache state is not left intact. -/
theorem set_failed_write_changes_cache_cex :
    (SessionStore.set (SState.mk [] [⟨"s", 1, [("_id", JVal.str "s")]⟩]) 5 "s"
      [("u", JVal.str "a")]).cbs = [Cb.err PErr.conflict] ∧
    (SessionStore.set (SState.mk [] [⟨"s", 1, [("_id", JVal.str "s")]⟩]) 5 "s"
      [("u", JVal.str "a")]).state.sessions ≠ [] := by
  decide

/-- C1 amended: set updates the cache with the merged record before the
store write is attempted; when the write fails, the cache holds the merged
record rather than the pre-call state, the store is unchanged, and the
error is surfaced to the caller. -/
theorem set_failed_write_surfaces_error_keeps_merged_cache (s : SState)
    (now : Int) (sid : String) (session : JObj) (e : PErr)
    (h : pouchPut s.pouch (setMerged s now sid session) = .error e) :
    (SessionStore.set s now sid session).state.sessions
      = aset s.sessions sid (setMerged s now sid session) ∧
    (SessionStore.set s now sid session).state.pouch = s.pouch ∧
    (SessionStore.set s now sid session).cbs = [Cb.err e] := by
  rw [set_error_shape s now sid session e h]
  exact ⟨rfl, rfl, rfl⟩

/-- C1 witness: the failing concrete set leaves the merged record in the
cache, the store unchanged, and surfaces the conflict. -/
theorem set_failed_write_surfaces_error_keeps_merged_cache_witness :
    (SessionStore.set (SState.mk [] [⟨"s", 1, [("_id", JVal.str "s")]⟩]) 5 "s"
      [("u", JVal.str "a")]).state.pouch = [⟨"s", 1, [("_id", JVal.str "s")]⟩] ∧
    (SessionStore.set (SState.mk [] [⟨"s", 1, [("_id", JVal.str "s")]⟩]) 5 "s"
      [("u", JVal.str "a")]).state.sessions
      = aset [] "s" (setMerged (SState.mk [] [⟨"s", 1, [("_id", JVal.str "s")]⟩])
          5 "s" [("u", JVal.str "a")]) :=
  ⟨(set_failed_write_surfaces_error_keeps_merged_cache
      (SState.mk [] [⟨"s", 1, [("_id", JVal.str "s")]⟩]) 5 "s"
      [("u", JVal.str "a")] PErr.conflict (by decide)).2.1,
   (set_failed_write_surfaces_error_keeps_merged_cache
      (SState.mk [] [⟨"s", 1, [("_id", JVal.str "s")]⟩]) 5 "s"
      [("u", JVal.str "a")] PErr.conflict (by decide)).1⟩

/-- C2: evaluating touch on a session whose cached record is 2 seconds
old: the source's stale path invokes the completion callback twice (once
inside the delegated set and once after it), contradicting the exactly
once requirement. -/
theorem touch_stale_invokes_callback_twice :
    (SessionStore.touch (SState.mk [("s", [("$ts", JVal.num 0)])] []) 2000 "s"
      []).cbs = [Cb.ok none, Cb.ok none] := by
  decide

/-- C3: evaluating destroy on an identifier absent from both the cache and
the store: the lookup succeeds with an absent document, the source then
calls remove on that absent (undefined) document, and the callback
receives an error instead of the silent success the specification
requires. -/
theorem destroy_absent_session_reports_error :
    SessionStore.destroy (SState.mk [] []) "missing" =
      ⟨SState.mk [] [], [.err PErr.badRequest], 0⟩ := by
  decide

end PouchSession
